import Mathlib

/-!
Verification development for the ThinkSocial / Inkline two-tier analysis
pipeline.  The definitions below are a shallow embedding of the program:

* the background service worker (`src/unnamed/part_001`, second document):
  `hashText`, `getCachedAnalysis`, `cacheAnalysis`, `checkRateLimit`,
  `getRemainingRequests`, `handleQuickScan`, `handleDeepAnalysis`;
* the backend analysis pipeline (`src/backend/src/analyze.ts`):
  `quickScan` response handling, `validateAnalysisResult`,
  `searchResultsToCounterSources`, the deep `analyzePost` result
  processing with relevance filtering and the fallback verdict;
* the backend HTTP endpoint (`src/backend/src/index.ts` and `cache.ts`);
* the content-script lifecycle (`src/extension/src/content.ts`):
  `triggerDeepAnalysis` and `processPost` dedup behavior.

Chrome local storage / in-memory maps are modelled as association lists,
`Date.now()` and `new Date().toDateString()` as explicit parameters, and
network calls as `Except`/`Option` parameters supplying the outcome of
the call.  JavaScript numbers holding confidences are modelled as `Rat`;
the 32-bit integer hash arithmetic is modelled on `Int` with an explicit
wrap into `[-2^31, 2^31)`.
-/

namespace ThinkSocial

/-- Association-list read, mirroring a keyed object/store lookup. -/
def storeGet {α : Type} (l : List (String × α)) (k : String) : Option α :=
  (l.find? (fun p => p.1 == k)).map (fun p => p.2)

/-- Remove a key, mirroring `chrome.storage.local.remove` / `Map.delete`. -/
def storeRemove {α : Type} (l : List (String × α)) (k : String) : List (String × α) :=
  l.filter (fun p => p.1 != k)

/-- Overwrite a key, mirroring `chrome.storage.local.set` / `Map.set`. -/
def storeSet {α : Type} (l : List (String × α)) (k : String) (v : α) : List (String × α) :=
  (k, v) :: storeRemove l k

/-- JavaScript truthiness of a possibly-absent string (`undefined`, `null`
and `""` are falsy). -/
def strTruthy (s : Option String) : Bool :=
  match s with
  | some st => st != ""
  | none => false

/-! ## Data model (interfaces from part_001 and backend `types.ts`) -/

/-- `CounterSource` — backend deep path additionally attaches a `stance`. -/
structure CounterSource where
  outlet : String
  lean : String
  headline : String
  url : String
  snippet : String
  stance : Option String
  isReal : Bool
  deriving DecidableEq, Repr

/-- One highlighted comment in `CommentAnalysis`. -/
structure CommentHighlight where
  author : String
  text : String
  reason : String
  sentiment : String
  deriving DecidableEq, Repr

/-- `CommentAnalysis` interface. -/
structure CommentAnalysis where
  overallTone : String
  leaningSummary : String
  highlights : List CommentHighlight
  agreementLevel : String
  deriving DecidableEq, Repr

/-- `DimensionRating` — ratings are the literal strings of the source. -/
structure DimensionRating where
  rating : String
  label : String
  reason : Option String
  deriving DecidableEq, Repr

/-- `AnalysisResult` (deep verdict). -/
structure AnalysisResult where
  overall : String
  perspective : DimensionRating
  verification : DimensionRating
  balance : DimensionRating
  source : DimensionRating
  tone : DimensionRating
  summary : String
  confidence : Rat
  counterPerspective : Option String
  counterSources : List CounterSource
  commentAnalysis : Option CommentAnalysis
  videoAnalysis : Option String
  hasVideo : Option Bool
  deriving DecidableEq, Repr

/-- `QuickResult` (quick verdict). -/
structure QuickResult where
  overall : String
  summary : String
  confidence : Rat
  deriving DecidableEq, Repr

/-- `CacheEntry` of the background worker (timestamp = `Date.now()` ms). -/
structure CacheEntry where
  analysis : AnalysisResult
  timestamp : Int
  deriving DecidableEq, Repr

/-- The value stored under `RATE_LIMIT_KEY`: `{ date, count }`. -/
structure RateLimitEntry where
  date : String
  count : Nat
  deriving DecidableEq, Repr

/-- The background worker's `chrome.storage.local` state: the cache entries
(keyed by `hashText`) together with the single rate-limit record. -/
structure BGState where
  cache : List (String × CacheEntry)
  rateLimit : Option RateLimitEntry
  deriving DecidableEq, Repr

/-- `CACHE_TTL = 24 * 60 * 60 * 1000` ms. -/
def CACHE_TTL : Int := 24 * 60 * 60 * 1000

/-- `DAILY_LIMIT = 200` (part_001, second document). -/
def DAILY_LIMIT : Nat := 200

/-! ## `hashText` (part_001 lines 291-299) -/

/-- JavaScript `ToInt32`: wrap an integer into `[-2^31, 2^31)`. -/
def toInt32 (n : Int) : Int :=
  (n + 2 ^ 31) % 2 ^ 32 - 2 ^ 31

/-- One loop iteration: `hash = ((hash << 5) - hash) + char; hash = hash & hash`.
`hash << 5` coerces through `ToInt32`, as does the final `& hash`. -/
def hashStep (h : Int) (c : Nat) : Int :=
  toInt32 (toInt32 (h * 32) - h + c)

/-- The hash accumulator over the text's characters starting from 0. -/
def hashChars (cs : List Char) : Int :=
  cs.foldl (fun h c => hashStep h c.toNat) 0

/-- Digit character for base-36 (`0-9` then `a-z`), as produced by
JavaScript `Number.prototype.toString(36)`. -/
def toBase36Digit (n : Nat) : Char :=
  if n < 10 then Char.ofNat (48 + n) else Char.ofNat (87 + n)

/-- Digit loop for base-36 rendering: prepend `n % 36` digits until the
leading digit remains.  Structural recursion on a fuel bound (`n` shrinks
by `/ 36` each step, so `n + 1` fuel never runs out). -/
def toBase36Go : Nat → Nat → List Char → List Char
  | 0, _, acc => acc
  | fuel + 1, n, acc =>
    if n < 36 then toBase36Digit n :: acc
    else toBase36Go fuel (n / 36) (toBase36Digit (n % 36) :: acc)

/-- Base-36 digit list of a natural number (most significant first). -/
def toBase36Aux (n : Nat) : List Char :=
  toBase36Go (n + 1) n []

/-- `Math.abs(hash).toString(36)` rendering. -/
def toBase36 (n : Nat) : String :=
  ⟨toBase36Aux n⟩

/-- `hashText`: `'ts_' + Math.abs(hash).toString(36)`. -/
def hashText (text : String) : String :=
  "ts_" ++ toBase36 (hashChars text.data).natAbs

/-! ## Background worker cache (part_001 lines 302-321) -/

/-- `getCachedAnalysis`: read the entry at `hashText text`; serve it while
`Date.now() - entry.timestamp < CACHE_TTL`, otherwise remove it and
report absence. -/
def getCachedAnalysis (now : Int) (text : String) (st : BGState) :
    Option AnalysisResult × BGState :=
  let key := hashText text
  match storeGet st.cache key with
  | some entry =>
    if now - entry.timestamp < CACHE_TTL then (some entry.analysis, st)
    else (none, { st with cache := storeRemove st.cache key })
  | none => (none, st)

/-- `cacheAnalysis`: store `{ analysis, timestamp: Date.now() }` at
`hashText text`. -/
def cacheAnalysis (now : Int) (text : String) (analysis : AnalysisResult)
    (st : BGState) : BGState :=
  { st with cache := storeSet st.cache (hashText text) ⟨analysis, now⟩ }

/-! ## Rate limiting (part_001 lines 324-350) -/

/-- `checkRateLimit`: returns whether the call is allowed and the updated
storage.  `today` is `new Date().toDateString()`. -/
def checkRateLimit (today : String) (st : BGState) : Bool × BGState :=
  match st.rateLimit with
  | some entry =>
    if entry.date = today then
      if entry.count ≥ DAILY_LIMIT then (false, st)
      else (true, { st with rateLimit := some ⟨today, entry.count + 1⟩ })
    else (true, { st with rateLimit := some ⟨today, 1⟩ })
  | none => (true, { st with rateLimit := some ⟨today, 1⟩ })

/-- `getRemainingRequests`: `Math.max(0, DAILY_LIMIT - count)` for today's
record, else `DAILY_LIMIT`. -/
def getRemainingRequests (today : String) (st : BGState) : Nat :=
  match st.rateLimit with
  | some entry => if entry.date = today then DAILY_LIMIT - entry.count else DAILY_LIMIT
  | none => DAILY_LIMIT

/-- The date recorded in the rate-limit store, if any. -/
def rateLimitDate (st : BGState) : Option String :=
  st.rateLimit.map (fun e => e.date)

/-- Iterate the allow check `k` times on the same day, keeping the state. -/
def iterCheck (today : String) (st : BGState) : Nat → BGState
  | 0 => st
  | k + 1 => (checkRateLimit today (iterCheck today st k)).2

/-! ## Message handlers of the background worker (part_001 lines 408-467) -/

/-- The object returned by `handleQuickScan`. -/
structure QuickScanOutcome where
  quickResult : Option QuickResult
  error : Option String
  cached : Option Bool
  deriving DecidableEq, Repr

/-- The object returned by `handleDeepAnalysis`. -/
structure DeepOutcome where
  analysis : Option AnalysisResult
  error : Option String
  cached : Option Bool
  deriving DecidableEq, Repr

/-- `summary.substring(0, 80)`. -/
def substring80 (s : String) : String :=
  ⟨s.data.take 80⟩

/-- `handleQuickScan`: serve a fresh cached deep verdict as a quick result;
otherwise consult the rate limit, then call `quickScanAPI` (whose outcome,
success or thrown error, is the `api` parameter). -/
def handleQuickScan (now : Int) (today : String) (text : String)
    (api : Except String QuickResult) (st : BGState) :
    QuickScanOutcome × BGState :=
  match getCachedAnalysis now text st with
  | (some cached, st1) =>
    ({ quickResult := some ⟨cached.overall, substring80 cached.summary, cached.confidence⟩,
       error := none, cached := some true }, st1)
  | (none, st1) =>
    match checkRateLimit today st1 with
    | (false, st2) =>
      ({ quickResult := none,
         error := some "Daily limit reached. Upgrade to Pro for unlimited.",
         cached := none }, st2)
    | (true, st2) =>
      match api with
      | .ok q => ({ quickResult := some q, error := none, cached := some false }, st2)
      | .error e => ({ quickResult := none, error := some e, cached := none }, st2)

/-- Truthiness of `cached.commentAnalysis && cached.commentAnalysis.overallTone`. -/
def hasCommentData (a : AnalysisResult) : Bool :=
  match a.commentAnalysis with
  | some ca => ca.overallTone != ""
  | none => false

/-- The non-cached tail of `handleDeepAnalysis`: call `deepAnalyzeAPI`
(outcome in `api`), cache a successful result. -/
def deepFetch (now : Int) (text : String) (api : Except String AnalysisResult)
    (st : BGState) : DeepOutcome × BGState :=
  match api with
  | .ok a =>
    ({ analysis := some a, error := none, cached := some false },
     cacheAnalysis now text a st)
  | .error e => ({ analysis := none, error := some e, cached := none }, st)

/-- `handleDeepAnalysis`: serve the cached verdict unless the caller
supplied comments and the cached verdict lacks comment analysis; no rate
limit check on this path. -/
def handleDeepAnalysis (now : Int) (text : String) (comments : List String)
    (api : Except String AnalysisResult) (st : BGState) :
    DeepOutcome × BGState :=
  match getCachedAnalysis now text st with
  | (some cached, st1) =>
    if comments.length == 0 || hasCommentData cached then
      ({ analysis := some cached, error := none, cached := some true }, st1)
    else deepFetch now text api st1
  | (none, st1) => deepFetch now text api st1

/-! ## Backend analysis pipeline (`src/backend/src/analyze.ts`) -/

/-- `validRatings = ['green', 'amber', 'red']`. -/
def validRatings : List String := ["green", "amber", "red"]

/-- A search result as consumed by `analyze.ts` (`r.title`, `r.url`,
`r.source`, `r.content`). -/
structure SearchResult where
  title : String
  url : String
  source : String
  content : String
  deriving DecidableEq, Repr

/-- One entry of the model's `relevantArticles` array; `index` is kept as
an integer option (`typeof a.index === 'number'` guards absence) and
`stance` may be absent or empty (both falsy). -/
structure RelevantArticle where
  index : Option Int
  stance : Option String
  deriving DecidableEq, Repr

/-- A dimension object as found in the parsed JSON, before validation:
`rating`/`label` are `none` when absent or not strings. -/
structure RawDimension where
  rating : Option String
  label : Option String
  reason : Option String
  deriving DecidableEq, Repr

/-- The parsed deep-judgment JSON object before validation.  `none` fields
model absent / wrongly-typed values; `confidence` is `none` when not a
number. -/
structure RawAnalysis where
  overall : Option String
  perspective : Option RawDimension
  verification : Option RawDimension
  balance : Option RawDimension
  source : Option RawDimension
  tone : Option RawDimension
  summary : Option String
  confidence : Option Rat
  counterSources : Option (List CounterSource)
  relevantArticles : Option (List RelevantArticle)
  counterPerspective : Option String
  commentAnalysis : Option CommentAnalysis
  videoAnalysis : Option String
  hasVideo : Option Bool
  deriving DecidableEq, Repr

/-- Per-dimension check of `validateAnalysisResult`: the dimension must be
an object with a tri-state `rating` and a string `label`. -/
def validateDim (d : Option RawDimension) : Option DimensionRating :=
  match d with
  | none => none
  | some dim =>
    match dim.rating, dim.label with
    | some r, some l =>
      if validRatings.contains r then some ⟨r, l, dim.reason⟩ else none
    | _, _ => none

/-- The confidence coercion of `validateAnalysisResult`: a number outside
`[0,1]`, a non-number or a missing value becomes `0.7`. -/
def coerceConfidence (c : Option Rat) : Rat :=
  match c with
  | some conf => if conf < 0 ∨ conf > 1 then 7 / 10 else conf
  | none => 7 / 10

/-- `validateAnalysisResult` (analyze.ts lines 177-202): reject unless
`overall` and every dimension rating are tri-state and `summary`/labels
are strings; coerce only `confidence` (default 0.7) and default
`counterSources` to `[]`.  All other fields of the object survive
unchanged. -/
def validateAnalysisResult (raw : RawAnalysis) : Option AnalysisResult :=
  match raw.overall with
  | none => none
  | some ov =>
    if validRatings.contains ov then
      match validateDim raw.perspective, validateDim raw.verification,
            validateDim raw.balance, validateDim raw.source,
            validateDim raw.tone with
      | some p, some v, some b, some s, some t =>
        match raw.summary with
        | none => none
        | some summ =>
          some { overall := ov, perspective := p, verification := v,
                 balance := b, source := s, tone := t, summary := summ,
                 confidence := coerceConfidence raw.confidence,
                 counterPerspective := raw.counterPerspective,
                 counterSources := raw.counterSources.getD [],
                 commentAnalysis := raw.commentAnalysis,
                 videoAnalysis := raw.videoAnalysis,
                 hasVideo := raw.hasVideo }
      | _, _, _, _, _ => none
    else none

/-- `searchResultsToCounterSources` (analyze.ts lines 204-215). -/
def searchResultsToCounterSources (results : List SearchResult) :
    List CounterSource :=
  (results.filter (fun r => r.url != "" && r.title != "")).map
    (fun r => { outlet := r.source, lean := "", headline := r.title,
                url := r.url, snippet := r.content, stance := none,
                isReal := true })

/-- `a.stance || 'neutral'` (absent or empty stance is falsy). -/
def stanceOrNeutral (s : Option String) : String :=
  match s with
  | some st => if st = "" then "neutral" else st
  | none => "neutral"

/-- The `relevantArticles.filter(...).map(...)` step of `analyzePost`:
keep entries whose `index` is a number within range and build a
counter-source from the corresponding search result with the assigned
stance. -/
def relevantToCounterSources (searchResults : List SearchResult)
    (arts : List RelevantArticle) : List CounterSource :=
  arts.filterMap (fun a =>
    match a.index with
    | some i =>
      if h : 0 ≤ i ∧ i.toNat < searchResults.length then
        let r := searchResults.get ⟨i.toNat, h.2⟩
        some { outlet := r.source, lean := "", headline := r.title,
               url := r.url, snippet := r.content,
               stance := some (stanceOrNeutral a.stance), isReal := true }
      else none
    | none => none)

/-- The fallback verdict returned when the deep judgment call throws,
returns empty output or schema-invalid JSON (analyze.ts lines 392-408). -/
def fallbackVerdict (searchResults : List SearchResult) (hasVideo : Bool)
    (visionDescription : String) : AnalysisResult :=
  { overall := "amber",
    perspective := ⟨"amber", "Unable to determine", none⟩,
    verification := ⟨"amber", "Unable to verify", none⟩,
    balance := ⟨"amber", "Unable to assess", none⟩,
    source := ⟨"amber", "Unknown source", none⟩,
    tone := ⟨"amber", "Unable to assess", none⟩,
    summary := "We were unable to fully analyze this post. Please use your own judgment.",
    confidence := 3 / 10,
    counterPerspective := none,
    counterSources :=
      if searchResults.length > 0 then searchResultsToCounterSources searchResults
      else [],
    commentAnalysis := none,
    videoAnalysis := if visionDescription != "" then some visionDescription else none,
    hasVideo := some hasVideo }

/-- The post-validation result processing of `analyzePost` (analyze.ts
lines 345-390): overwrite `counterSources` from the relevance judgments
when search ran, set `hasVideo` when the request had video, and fill
`videoAnalysis` from the vision description when absent.  The
`counterPerspective`/`commentAnalysis` carry-throughs mutate the same
object and are no-ops here. -/
def processValidated (searchResults : List SearchResult) (hasVideo : Bool)
    (visionDescription : String) (raw : RawAnalysis) (a : AnalysisResult) :
    AnalysisResult :=
  let a1 :=
    if searchResults.length > 0 then
      let relevantArticles := raw.relevantArticles.getD []
      if relevantArticles.length > 0 then
        { a with counterSources := relevantToCounterSources searchResults relevantArticles }
      else
        { a with counterSources := searchResultsToCounterSources searchResults }
    else a
  let a2 := if hasVideo then { a1 with hasVideo := some true } else a1
  if visionDescription != "" && !(strTruthy a2.videoAnalysis) then
    { a2 with videoAnalysis := some visionDescription }
  else a2

/-- The judgment stage of deep `analyzePost`: `judgment` is the outcome of
the DeepSeek call, `none` when the call threw, returned empty content or
unparseable JSON.  A schema-invalid object likewise falls to the fallback
verdict. -/
def analyzePostDeepResult (searchResults : List SearchResult) (hasVideo : Bool)
    (visionDescription : String) (judgment : Option RawAnalysis) :
    AnalysisResult :=
  match judgment with
  | none => fallbackVerdict searchResults hasVideo visionDescription
  | some raw =>
    match validateAnalysisResult raw with
    | none => fallbackVerdict searchResults hasVideo visionDescription
    | some a => processValidated searchResults hasVideo visionDescription raw a

/-- The parsed quick-scan JSON before coercion. -/
structure RawQuick where
  overall : Option String
  summary : Option String
  confidence : Option Rat
  deriving DecidableEq, Repr

/-- `Math.min(1, Math.max(0, c))`. -/
def clamp01 (c : Rat) : Rat := min 1 (max 0 c)

/-- The response handling of `quickScan` (analyze.ts lines 38-69):
`resp = none` is the catch branch (throw / empty response); a parsed
object has its fields coerced — an invalid `overall` becomes `'amber'`,
a non-string summary a stock message, a non-number confidence `0.5`. -/
def quickScanResult (resp : Option RawQuick) : QuickResult :=
  match resp with
  | none =>
    { overall := "amber", summary := "Quick assessment unavailable",
      confidence := 3 / 10 }
  | some r =>
    { overall :=
        match r.overall with
        | some ov => if validRatings.contains ov then ov else "amber"
        | none => "amber",
      summary := r.summary.getD "Unable to assess quickly",
      confidence :=
        match r.confidence with
        | some c => clamp01 c
        | none => 5 / 10 }

/-- All six ratings of a verdict are tri-state. -/
def verdictRatingsValid (a : AnalysisResult) : Bool :=
  validRatings.contains a.overall &&
  validRatings.contains a.perspective.rating &&
  validRatings.contains a.verification.rating &&
  validRatings.contains a.balance.rating &&
  validRatings.contains a.source.rating &&
  validRatings.contains a.tone.rating

/-! ## Backend HTTP endpoint (`src/backend/src/index.ts`, `cache.ts`)

`generateCacheKey` hashes the text with the `crypto` library's SHA-256
(an external primitive); it is modelled as a parameter `sha` standing for
the hex digest prefix. -/

/-- `generateCacheKey`: `'ts:analysis:' + sha256(text).hex.substring(0,16)`,
with the digest supplied by the `sha` parameter. -/
def generateCacheKey (sha : String → String) (text : String) : String :=
  "ts:analysis:" ++ sha text

/-- Server-side cache state: whether Redis is reachable and its keyed
contents (expiry is enforced by Redis itself via `setex`). -/
structure ServerState where
  redisAvailable : Bool
  cache : List (String × AnalysisResult)
  deriving DecidableEq, Repr

/-- Server `getCachedAnalysis` (cache.ts lines 54-72): absent when Redis
is unavailable or the key is missing. -/
def serverGetCached (sha : String → String) (text : String) (st : ServerState) :
    Option AnalysisResult :=
  if st.redisAvailable then storeGet st.cache (generateCacheKey sha text)
  else none

/-- Server `cacheAnalysis` (cache.ts lines 75-85): a no-op when Redis is
unavailable. -/
def serverCacheAnalysis (sha : String → String) (text : String)
    (analysis : AnalysisResult) (st : ServerState) : ServerState :=
  if st.redisAvailable then
    { st with cache := storeSet st.cache (generateCacheKey sha text) analysis }
  else st

/-- The request body of `/api/analyze`; `text = none` models a missing or
non-string field. -/
structure ApiBody where
  text : Option String
  author : Option String
  deriving DecidableEq, Repr

/-- The `AnalyzeResponse` JSON. -/
structure AnalyzeResponse where
  success : Bool
  analysis : Option AnalysisResult
  error : Option String
  cached : Option Bool
  deriving DecidableEq, Repr

/-- The `/api/analyze` handler (index.ts lines 60-117): validate the text
field (`!text` also rejects the empty string), serve from cache, else run
the analysis (`api` is its outcome; `.error` is the catch-all 500 path)
and cache the result. -/
def handleAnalyze (sha : String → String) (body : ApiBody)
    (api : Except Unit AnalysisResult) (st : ServerState) :
    AnalyzeResponse × ServerState :=
  match body.text with
  | none =>
    ({ success := false, analysis := none,
       error := some "Missing or invalid \x22text\x22 field", cached := none }, st)
  | some text =>
    if text = "" then
      ({ success := false, analysis := none,
         error := some "Missing or invalid \x22text\x22 field", cached := none }, st)
    else if text.length < 10 then
      ({ success := false, analysis := none,
         error := some "Text too short to analyze", cached := none }, st)
    else if text.length > 5000 then
      ({ success := false, analysis := none,
         error := some "Text too long (max 5000 characters)", cached := none }, st)
    else
      match serverGetCached sha text st with
      | some cached =>
        ({ success := true, analysis := some cached, error := none,
           cached := some true }, st)
      | none =>
        match api with
        | .ok analysis =>
          ({ success := true, analysis := some analysis, error := none,
             cached := some false }, serverCacheAnalysis sha text analysis st)
        | .error _ =>
          ({ success := false, analysis := none,
             error := some "Internal server error", cached := none }, st)

/-! ## Client lifecycle (`src/extension/src/content.ts`) -/

/-- The media descriptors attached to a detected post. -/
structure MediaInfo where
  hasVideo : Bool
  videoDescription : String
  videoThumbnailUrl : String
  imageUrls : List String
  deriving DecidableEq, Repr

/-- An entry of `postMetaMap`. -/
structure PostMeta where
  postId : String
  text : String
  author : String
  media : MediaInfo
  comments : List String
  quickResult : Option QuickResult
  deepResult : Option AnalysisResult
  deepPending : Bool
  deriving DecidableEq, Repr

/-- A message sent to the background worker via
`chrome.runtime.sendMessage`. -/
inductive OutMessage where
  | quickScanMsg (postId text author : String)
  | deepAnalyzeMsg (postId text author : String) (hasVideo : Bool)
      (videoDescription videoThumbnailUrl : String)
      (imageUrls : List String) (comments : List String)
  deriving DecidableEq, Repr

/-- Content-script state: the metadata map, the two dedup sets, and the
log of outbound messages. -/
structure ClientState where
  postMetaMap : List (String × PostMeta)
  processedPosts : List String
  pendingPosts : List String
  outbound : List OutMessage
  deriving DecidableEq, Repr

/-- Add to a JavaScript `Set` (idempotent). -/
def setAdd (l : List String) (k : String) : List String :=
  if l.contains k then l else k :: l

/-- `triggerDeepAnalysis` (content.ts lines 1177-1243), up to the point the
message is sent: a no-op when the post is unknown, already has a deep
result, or has one pending.  `freshComments` is what `extractComments`
returns on re-extraction (`none` when the badge/article is not found);
larger fresh sets replace the stored ones.  The response callback (which
clears `deepPending`) is outside this step. -/
def triggerDeepAnalysis (postId : String) (freshComments : Option (List String))
    (st : ClientState) : ClientState :=
  match storeGet st.postMetaMap postId with
  | none => st
  | some meta =>
    if meta.deepResult.isSome || meta.deepPending then st
    else
      let meta1 :=
        match freshComments with
        | some fresh =>
          if fresh.length > meta.comments.length then { meta with comments := fresh }
          else meta
        | none => meta
      let meta2 := { meta1 with deepPending := true }
      { st with
        postMetaMap := storeSet st.postMetaMap postId meta2,
        outbound := st.outbound ++
          [.deepAnalyzeMsg postId meta2.text meta2.author meta2.media.hasVideo
            meta2.media.videoDescription meta2.media.videoThumbnailUrl
            meta2.media.imageUrls meta2.comments] }

/-- `processPost` (content.ts lines 1261-1315), up to the point the quick
scan message is sent: a no-op for posts already processed or pending; on
success the post is registered pending and one `QUICK_SCAN` message goes
out (`badgeOk = false` models `injectBadge` returning null). -/
def processPost (postId : Option String) (text author : String)
    (media : MediaInfo) (comments : List String) (badgeOk : Bool)
    (st : ClientState) : ClientState :=
  match postId with
  | none => st
  | some pid =>
    if st.processedPosts.contains pid || st.pendingPosts.contains pid then st
    else if text = "" || text.length < 10 then st
    else
      let st1 := { st with
        postMetaMap := storeSet st.postMetaMap pid
          ⟨pid, text, author, media, comments, none, none, false⟩ }
      let st2 := { st1 with pendingPosts := setAdd st1.pendingPosts pid }
      if badgeOk then
        { st2 with outbound := st2.outbound ++ [.quickScanMsg pid text author] }
      else
        { st2 with pendingPosts := st2.pendingPosts.filter (fun p => p != pid) }

/-- Count the outbound `DEEP_ANALYZE` messages. -/
def countDeepMsgs (msgs : List OutMessage) : Nat :=
  (msgs.filter (fun m =>
    match m with
    | .deepAnalyzeMsg .. => true
    | _ => false)).length

/-- Count the outbound `QUICK_SCAN` messages. -/
def countQuickMsgs (msgs : List OutMessage) : Nat :=
  (msgs.filter (fun m =>
    match m with
    | .quickScanMsg .. => true
    | _ => false)).length

/-- A ContentRecord as described in the data model: identity, text,
author, media and comments of one detected content item. -/
structure ContentRecord where
  id : String
  text : String
  author : String
  media : MediaInfo
  commentExcerpts : List String
  deriving DecidableEq, Repr

/-- The cache/dedup key of a content record is `hashText` of its text. -/
def contentCacheKey (r : ContentRecord) : String :=
  hashText r.text

/-- A concrete verdict used to instantiate witnesses. -/
def sampleVerdict : AnalysisResult :=
  { overall := "green",
    perspective := ⟨"green", "Balanced", none⟩,
    verification := ⟨"green", "Verified", none⟩,
    balance := ⟨"green", "Multiple views", none⟩,
    source := ⟨"green", "Established outlet", none⟩,
    tone := ⟨"green", "Neutral", none⟩,
    summary := "Appears balanced and well-sourced.",
    confidence := 9 / 10,
    counterPerspective := none,
    counterSources := [],
    commentAnalysis := none,
    videoAnalysis := none,
    hasVideo := some false }

/-! ## Store lemmas -/

theorem storeGet_storeSet_self {α : Type} (l : List (String × α)) (k : String)
    (v : α) : storeGet (storeSet l k v) k = some v := by
  simp [storeGet, storeSet, List.find?]

/-! ## Theorems -/

/-- C4: the fingerprint is a pure deterministic function of the text
alone — repeated evaluation agrees, and two content records with the same
text map to the same cache/dedup key regardless of id, author, media or
comments. -/
theorem c4_fingerprint_pure :
    (∀ t : String, hashText t = hashText t) ∧
    (∀ r1 r2 : ContentRecord, r1.text = r2.text →
      contentCacheKey r1 = contentCacheKey r2) := by
  refine ⟨fun _ => rfl, fun r1 r2 h => ?_⟩
  simp [contentCacheKey, h]

theorem c4_fingerprint_pure_witness :
    (({ id := "1", text := "same words", author := "alice",
        media := ⟨false, "", "", []⟩, commentExcerpts := [] } : ContentRecord).text
      = ({ id := "2", text := "same words", author := "bob",
           media := ⟨true, "clip", "thumb", ["img"]⟩,
           commentExcerpts := ["nice"] } : ContentRecord).text) ∧
    contentCacheKey
        { id := "1", text := "same words", author := "alice",
          media := ⟨false, "", "", []⟩, commentExcerpts := [] }
      = contentCacheKey
        { id := "2", text := "same words", author := "bob",
          media := ⟨true, "clip", "thumb", ["img"]⟩,
          commentExcerpts := ["nice"] } :=
  ⟨rfl, c4_fingerprint_pure.2 _ _ rfl⟩

/-- C3: a cache read of an entry whose age has reached the TTL returns
absent and evicts the entry; a read strictly before expiry returns the
stored verdict unchanged. -/
theorem c3_cache_ttl (now ts : Int) (text : String) (a : AnalysisResult)
    (st : BGState)
    (hstored : storeGet st.cache (hashText text) = some ⟨a, ts⟩) :
    (CACHE_TTL ≤ now - ts →
      getCachedAnalysis now text st =
        (none, { st with cache := storeRemove st.cache (hashText text) })) ∧
    (now - ts < CACHE_TTL → getCachedAnalysis now text st = (some a, st)) := by
  constructor <;> intro h <;>
    simp only [getCachedAnalysis, hstored] <;>
    [rw [if_neg (by omega)]; rw [if_pos (by omega)]]

theorem c3_cache_ttl_witness :
    (storeGet (BGState.mk [(hashText "the quick brown fox", ⟨sampleVerdict, 0⟩)] none).cache
        (hashText "the quick brown fox") = some ⟨sampleVerdict, 0⟩) ∧
    ((CACHE_TTL ≤ CACHE_TTL - 0 →
      getCachedAnalysis CACHE_TTL "the quick brown fox"
          (BGState.mk [(hashText "the quick brown fox", ⟨sampleVerdict, 0⟩)] none) =
        (none, { BGState.mk [(hashText "the quick brown fox", ⟨sampleVerdict, 0⟩)] none with
                  cache := storeRemove
                    (BGState.mk [(hashText "the quick brown fox", ⟨sampleVerdict, 0⟩)] none).cache
                    (hashText "the quick brown fox") })) ∧
     (CACHE_TTL - 0 < CACHE_TTL →
      getCachedAnalysis CACHE_TTL "the quick brown fox"
          (BGState.mk [(hashText "the quick brown fox", ⟨sampleVerdict, 0⟩)] none) =
        (some sampleVerdict,
         BGState.mk [(hashText "the quick brown fox", ⟨sampleVerdict, 0⟩)] none))) :=
  ⟨by simp [storeGet], c3_cache_ttl CACHE_TTL 0 "the quick brown fox" sampleVerdict _
    (by simp [storeGet])⟩

/-- The rate-limit state after `k ∈ [1, DAILY_LIMIT]` allow checks on one
day, starting from a state whose record is absent or from another day:
the counter reads exactly `k` and the cache is untouched. -/
theorem iterCheck_state (today : String) (st : BGState)
    (hfresh : rateLimitDate st ≠ some today) :
    ∀ k, 1 ≤ k → k ≤ DAILY_LIMIT →
      iterCheck today st k = { st with rateLimit := some ⟨today, k⟩ } := by
  intro k
  induction k with
  | zero => omega
  | succ n ih =>
    intro _ hle
    by_cases hn : n = 0
    · subst hn
      show (checkRateLimit today (iterCheck today st 0)).2 = _
      simp only [iterCheck, checkRateLimit]
      cases hst : st.rateLimit with
      | none => simp
      | some e =>
        have hne : ¬ e.date = today := by
          intro hcontra
          exact hfresh (by simp [rateLimitDate, hst, hcontra])
        simp [hne]
    · have h1 : 1 ≤ n := Nat.one_le_iff_ne_zero.mpr hn
      show (checkRateLimit today (iterCheck today st n)).2 = _
      rw [ih h1 (by omega)]
      simp only [checkRateLimit]
      have hlt : ¬ ((⟨today, n⟩ : RateLimitEntry).count ≥ DAILY_LIMIT) := by
        simp only []
        omega
      simp [hlt]

/-- C1: quota boundary.  From a fresh day, each of the first
`DAILY_LIMIT` allow checks returns true and leaves the counter at its
call index (the first call resets it to 1); the `(DAILY_LIMIT+1)`th call
on the same day returns false and leaves the state unchanged; and the
first call on any different date string is allowed again with the counter
reset to 1. -/
theorem c1_quota_boundary (today : String) (st : BGState)
    (hfresh : rateLimitDate st ≠ some today) :
    (∀ k, k < DAILY_LIMIT →
      (checkRateLimit today (iterCheck today st k)).1 = true ∧
      iterCheck today st (k + 1) = { st with rateLimit := some ⟨today, k + 1⟩ }) ∧
    ((checkRateLimit today (iterCheck today st DAILY_LIMIT)).1 = false ∧
     (checkRateLimit today (iterCheck today st DAILY_LIMIT)).2 =
       iterCheck today st DAILY_LIMIT) ∧
    (∀ d2, d2 ≠ today →
      checkRateLimit d2 (iterCheck today st DAILY_LIMIT) =
        (true, { st with rateLimit := some ⟨d2, 1⟩ })) := by
  have hN : iterCheck today st DAILY_LIMIT =
      { st with rateLimit := some ⟨today, DAILY_LIMIT⟩ } :=
    iterCheck_state today st hfresh DAILY_LIMIT (by norm_num [DAILY_LIMIT]) le_rfl
  refine ⟨fun k hk => ?_, ⟨?_, ?_⟩, fun d2 hd2 => ?_⟩
  · have hstep : iterCheck today st (k + 1) =
        { st with rateLimit := some ⟨today, k + 1⟩ } :=
      iterCheck_state today st hfresh (k + 1) (by omega) (by omega)
    refine ⟨?_, hstep⟩
    by_cases hk0 : k = 0
    · subst hk0
      simp only [iterCheck, checkRateLimit]
      cases hst : st.rateLimit with
      | none => simp
      | some e =>
        have hne : ¬ e.date = today := by
          intro hcontra
          exact hfresh (by simp [rateLimitDate, hst, hcontra])
        simp [hne]
    · rw [iterCheck_state today st hfresh k (by omega) (by omega)]
      simp only [checkRateLimit]
      have : ¬ ((⟨today, k⟩ : RateLimitEntry).count ≥ DAILY_LIMIT) := by
        simp only []
        omega
      simp [this]
  · rw [hN]
    simp [checkRateLimit]
  · rw [hN]
    simp [checkRateLimit]
  · rw [hN]
    simp only [checkRateLimit]
    have hne : ¬ (⟨today, DAILY_LIMIT⟩ : RateLimitEntry).date = d2 := by
      simp only []
      exact fun hcontra => hd2 hcontra.symm
    simp [hne]

theorem c1_quota_boundary_witness :
    (rateLimitDate (BGState.mk [] none) ≠ some "Mon Feb 02 2026") ∧
    ((∀ k, k < DAILY_LIMIT →
      (checkRateLimit "Mon Feb 02 2026" (iterCheck "Mon Feb 02 2026" (BGState.mk [] none) k)).1 = true ∧
      iterCheck "Mon Feb 02 2026" (BGState.mk [] none) (k + 1) =
        { BGState.mk [] none with rateLimit := some ⟨"Mon Feb 02 2026", k + 1⟩ }) ∧
    ((checkRateLimit "Mon Feb 02 2026" (iterCheck "Mon Feb 02 2026" (BGState.mk [] none) DAILY_LIMIT)).1 = false ∧
     (checkRateLimit "Mon Feb 02 2026" (iterCheck "Mon Feb 02 2026" (BGState.mk [] none) DAILY_LIMIT)).2 =
       iterCheck "Mon Feb 02 2026" (BGState.mk [] none) DAILY_LIMIT) ∧
    (∀ d2, d2 ≠ "Mon Feb 02 2026" →
      checkRateLimit d2 (iterCheck "Mon Feb 02 2026" (BGState.mk [] none) DAILY_LIMIT) =
        (true, { BGState.mk [] none with rateLimit := some ⟨d2, 1⟩ }))) :=
  ⟨by simp [rateLimitDate],
   c1_quota_boundary "Mon Feb 02 2026" (BGState.mk [] none) (by simp [rateLimitDate])⟩

/-- A cache read never touches the rate-limit record. -/
theorem getCached_rateLimit (now : Int) (text : String) (st : BGState) :
    (getCachedAnalysis now text st).2.rateLimit = st.rateLimit := by
  simp only [getCachedAnalysis]
  split
  · split <;> rfl
  · rfl

/-- A cache read neither reads nor writes the rate-limit record: its
outcome on a state with a replaced record is the original outcome with
the record replaced. -/
theorem getCached_quota_oblivious (now : Int) (text : String) (st : BGState)
    (q : Option RateLimitEntry) :
    getCachedAnalysis now text { st with rateLimit := q } =
      ((getCachedAnalysis now text st).1,
       { (getCachedAnalysis now text st).2 with rateLimit := q }) := by
  simp only [getCachedAnalysis]
  cases hg : storeGet st.cache (hashText text) with
  | none => simp [hg]
  | some e =>
    by_cases hlt : now - e.timestamp < CACHE_TTL <;> simp [hg, hlt]

/-- `deepFetch` never touches the rate-limit record. -/
theorem deepFetch_rateLimit (now : Int) (text : String)
    (api : Except String AnalysisResult) (st : BGState) :
    (deepFetch now text api st).2.rateLimit = st.rateLimit := by
  cases api <;> simp [deepFetch, cacheAnalysis]

/-- `deepFetch` neither reads nor writes the rate-limit record. -/
theorem deepFetch_quota_oblivious (now : Int) (text : String)
    (api : Except String AnalysisResult) (st : BGState)
    (q : Option RateLimitEntry) :
    deepFetch now text api { st with rateLimit := q } =
      ((deepFetch now text api st).1,
       { (deepFetch now text api st).2 with rateLimit := q }) := by
  cases api <;> simp [deepFetch, cacheAnalysis]

/-- C2: the quota guard gates only the quick tier.  A quick request whose
text is freshly cached returns the cached verdict (as a quick result)
with the rate-limit record untouched; and a deep request never reads or
updates the rate-limit record, whatever the cache or the API outcome. -/
theorem c2_quota_gates_only_quick (now : Int) (today text : String)
    (qapi : Except String QuickResult) (comments : List String)
    (dapi : Except String AnalysisResult) (st st1 : BGState)
    (cached : AnalysisResult)
    (hhit : getCachedAnalysis now text st = (some cached, st1)) :
    (handleQuickScan now today text qapi st =
      ({ quickResult := some ⟨cached.overall, substring80 cached.summary, cached.confidence⟩,
         error := none, cached := some true }, st1) ∧
     st1.rateLimit = st.rateLimit) ∧
    ((handleDeepAnalysis now text comments dapi st).2.rateLimit = st.rateLimit) ∧
    (∀ q : Option RateLimitEntry,
      handleDeepAnalysis now text comments dapi { st with rateLimit := q } =
        ((handleDeepAnalysis now text comments dapi st).1,
         { (handleDeepAnalysis now text comments dapi st).2 with rateLimit := q })) := by
  have hrl := getCached_rateLimit now text st
  rw [hhit] at hrl
  refine ⟨⟨?_, hrl⟩, ?_, ?_⟩
  · simp only [handleQuickScan, hhit]
  · simp only [handleDeepAnalysis, hhit]
    split
    · exact hrl
    · rw [deepFetch_rateLimit]
      exact hrl
  · intro q
    simp only [handleDeepAnalysis, getCached_quota_oblivious now text st q, hhit]
    split
    · rfl
    · rw [deepFetch_quota_oblivious]

theorem c2_quota_gates_only_quick_witness :
    (getCachedAnalysis 6 "cached post text" (BGState.mk
        [(hashText "cached post text", ⟨sampleVerdict, 5⟩)] (some ⟨"Mon Feb 02 2026", 3⟩)) =
      (some sampleVerdict, BGState.mk
        [(hashText "cached post text", ⟨sampleVerdict, 5⟩)] (some ⟨"Mon Feb 02 2026", 3⟩))) ∧
    ((handleQuickScan 6 "Mon Feb 02 2026" "cached post text" (.error "offline")
        (BGState.mk [(hashText "cached post text", ⟨sampleVerdict, 5⟩)]
          (some ⟨"Mon Feb 02 2026", 3⟩)) =
      ({ quickResult := some ⟨sampleVerdict.overall, substring80 sampleVerdict.summary,
           sampleVerdict.confidence⟩, error := none, cached := some true },
       BGState.mk [(hashText "cached post text", ⟨sampleVerdict, 5⟩)]
         (some ⟨"Mon Feb 02 2026", 3⟩)) ∧
      (BGState.mk [(hashText "cached post text", ⟨sampleVerdict, 5⟩)]
         (some ⟨"Mon Feb 02 2026", 3⟩)).rateLimit =
       (BGState.mk [(hashText "cached post text", ⟨sampleVerdict, 5⟩)]
         (some ⟨"Mon Feb 02 2026", 3⟩)).rateLimit) ∧
     ((handleDeepAnalysis 6 "cached post text" ["a comment"] (.error "offline")
        (BGState.mk [(hashText "cached post text", ⟨sampleVerdict, 5⟩)]
          (some ⟨"Mon Feb 02 2026", 3⟩))).2.rateLimit =
      (BGState.mk [(hashText "cached post text", ⟨sampleVerdict, 5⟩)]
        (some ⟨"Mon Feb 02 2026", 3⟩)).rateLimit) ∧
     (∀ q : Option RateLimitEntry,
      handleDeepAnalysis 6 "cached post text" ["a comment"] (.error "offline")
          { BGState.mk [(hashText "cached post text", ⟨sampleVerdict, 5⟩)]
              (some ⟨"Mon Feb 02 2026", 3⟩) with rateLimit := q } =
        ((handleDeepAnalysis 6 "cached post text" ["a comment"] (.error "offline")
            (BGState.mk [(hashText "cached post text", ⟨sampleVerdict, 5⟩)]
              (some ⟨"Mon Feb 02 2026", 3⟩))).1,
         { (handleDeepAnalysis 6 "cached post text" ["a comment"] (.error "offline")
             (BGState.mk [(hashText "cached post text", ⟨sampleVerdict, 5⟩)]
               (some ⟨"Mon Feb 02 2026", 3⟩))).2 with rateLimit := q }))) :=
  ⟨by simp [getCachedAnalysis, storeGet, CACHE_TTL],
   c2_quota_gates_only_quick 6 "Mon Feb 02 2026" "cached post text" (.error "offline")
     ["a comment"] (.error "offline") _ _ sampleVerdict
     (by simp [getCachedAnalysis, storeGet, CACHE_TTL])⟩

/-- C8: a deep request with a fresh cache hit is served from cache exactly
when the caller supplied no comments or the cached verdict already has
comment analysis; otherwise the cache hit is ignored and the analysis
re-runs, caching its fresh result. -/
theorem c8_deep_cache_completeness (now : Int) (text : String)
    (comments : List String) (api : Except String AnalysisResult)
    (st st1 : BGState) (cached : AnalysisResult)
    (hhit : getCachedAnalysis now text st = (some cached, st1)) :
    ((comments.length = 0 ∨ hasCommentData cached = true) →
      handleDeepAnalysis now text comments api st =
        ({ analysis := some cached, error := none, cached := some true }, st1)) ∧
    (comments.length ≠ 0 → hasCommentData cached = false →
      handleDeepAnalysis now text comments api st = deepFetch now text api st1) ∧
    (∀ a, api = .ok a →
      deepFetch now text api st1 =
        ({ analysis := some a, error := none, cached := some false },
         cacheAnalysis now text a st1)) := by
  refine ⟨fun hserve => ?_, fun hcomm hnodata => ?_, fun a hok => ?_⟩
  · simp only [handleDeepAnalysis, hhit]
    have : (comments.length == 0 || hasCommentData cached) = true := by
      rcases hserve with h | h
      · simp [h]
      · simp [h]
    simp [this]
  · simp only [handleDeepAnalysis, hhit]
    have : (comments.length == 0 || hasCommentData cached) = false := by
      simp [hnodata, hcomm]
    simp [this]
  · subst hok
    rfl

theorem c8_deep_cache_completeness_witness :
    (getCachedAnalysis 6 "cached post text" (BGState.mk
        [(hashText "cached post text", ⟨sampleVerdict, 5⟩)] none) =
      (some sampleVerdict,
       BGState.mk [(hashText "cached post text", ⟨sampleVerdict, 5⟩)] none)) ∧
    ((([] : List String).length = 0 ∨ hasCommentData sampleVerdict = true) ∧
     handleDeepAnalysis 6 "cached post text" [] (.ok sampleVerdict)
        (BGState.mk [(hashText "cached post text", ⟨sampleVerdict, 5⟩)] none) =
      ({ analysis := some sampleVerdict, error := none, cached := some true },
       BGState.mk [(hashText "cached post text", ⟨sampleVerdict, 5⟩)] none)) ∧
    ((["hot take"] : List String).length ≠ 0 ∧ hasCommentData sampleVerdict = false ∧
     handleDeepAnalysis 6 "cached post text" ["hot take"] (.ok sampleVerdict)
        (BGState.mk [(hashText "cached post text", ⟨sampleVerdict, 5⟩)] none) =
      deepFetch 6 "cached post text" (.ok sampleVerdict)
        (BGState.mk [(hashText "cached post text", ⟨sampleVerdict, 5⟩)] none)) ∧
    (deepFetch 6 "cached post text" (.ok sampleVerdict)
        (BGState.mk [(hashText "cached post text", ⟨sampleVerdict, 5⟩)] none) =
      ({ analysis := some sampleVerdict, error := none, cached := some false },
       cacheAnalysis 6 "cached post text" sampleVerdict
         (BGState.mk [(hashText "cached post text", ⟨sampleVerdict, 5⟩)] none))) := by
  have hhit : getCachedAnalysis 6 "cached post text" (BGState.mk
      [(hashText "cached post text", ⟨sampleVerdict, 5⟩)] none) =
      (some sampleVerdict,
       BGState.mk [(hashText "cached post text", ⟨sampleVerdict, 5⟩)] none) := by
    simp [getCachedAnalysis, storeGet, CACHE_TTL]
  refine ⟨hhit, ⟨Or.inl rfl, ?_⟩, ⟨by simp, rfl, ?_⟩, ?_⟩
  · exact (c8_deep_cache_completeness 6 "cached post text" [] (.ok sampleVerdict)
      _ _ sampleVerdict hhit).1 (Or.inl rfl)
  · exact (c8_deep_cache_completeness 6 "cached post text" ["hot take"] (.ok sampleVerdict)
      _ _ sampleVerdict hhit).2.1 (by simp) rfl
  · exact (c8_deep_cache_completeness 6 "cached post text" ["hot take"] (.ok sampleVerdict)
      _ _ sampleVerdict hhit).2.2 sampleVerdict rfl

/-- A dimension whose rating is present but not tri-state fails
`validateDim`. -/
theorem validateDim_none_of_invalid (d : RawDimension) (r : String)
    (hr : d.rating = some r) (hcont : validRatings.contains r = false) :
    validateDim (some d) = none := by
  have hcont' : r ∉ validRatings := by simpa using hcont
  cases hl : d.label <;> simp [validateDim, hr, hl, hcont']

/-- If any of the five dimensions fails `validateDim`, the whole response
is rejected. -/
theorem validate_none_of_dim (raw : RawAnalysis)
    (h : validateDim raw.perspective = none ∨ validateDim raw.verification = none ∨
         validateDim raw.balance = none ∨ validateDim raw.source = none ∨
         validateDim raw.tone = none) :
    validateAnalysisResult raw = none := by
  cases ho : raw.overall with
  | none => simp [validateAnalysisResult, ho]
  | some ov =>
    simp only [validateAnalysisResult, ho]
    by_cases hov : validRatings.contains ov
    · simp only [hov, if_true]
      cases h1 : validateDim raw.perspective <;>
        cases h2 : validateDim raw.verification <;>
        cases h3 : validateDim raw.balance <;>
        cases h4 : validateDim raw.source <;>
        cases h5 : validateDim raw.tone <;>
        simp_all
    · have hov' : ov ∉ validRatings := by simpa using hov
      simp [hov']

/-- A dimension accepted by `validateDim` has a tri-state rating. -/
theorem validateDim_sound (d : Option RawDimension) (dr : DimensionRating)
    (h : validateDim d = some dr) : validRatings.contains dr.rating = true := by
  cases d with
  | none => simp [validateDim] at h
  | some dd =>
    simp only [validateDim] at h
    split at h
    · split at h
      · rename_i r l hrl hcont
        cases h
        exact hcont
      · cases h
    · cases h

/-- C5 counterexample to the claim as stated: on the quick tier an
invalid overall rating is not rejected — the response is coerced to a
successful quick result with overall `'amber'` (and the parsed summary
and clamped confidence kept). -/
theorem c5_counterexample_quick_coerces :
    validRatings.contains "purple" = false ∧
    (quickScanResult (some ⟨some "purple", some "Looks fine", some (9 / 10)⟩)).overall
      = "amber" ∧
    (quickScanResult (some ⟨some "purple", some "Looks fine", some (9 / 10)⟩)).summary
      = "Looks fine" ∧
    (quickScanResult (some ⟨some "purple", some "Looks fine", some (9 / 10)⟩)).confidence
      = 9 / 10 := by
  refine ⟨by decide, by decide, by decide, ?_⟩
  simp only [quickScanResult]
  norm_num [clamp01, min_def, max_def]

/-- C5 (amended): the deep-tier validator rejects any response whose
overall or dimension rating is not tri-state (the call then yields the
fallback, i.e. is treated as failed), takes accepted ratings verbatim,
and coerces only confidence — into `[0,1]` with default 0.7 when missing
or out of range; the quick tier instead coerces, always producing a
tri-state overall. -/
theorem c5_validation_amended (raw : RawAnalysis) (rq : RawQuick)
    (sr : List SearchResult) (hv : Bool) (vd : String) :
    (validRatings.contains (quickScanResult (some rq)).overall = true) ∧
    (∀ ov, raw.overall = some ov → validRatings.contains ov = false →
      validateAnalysisResult raw = none ∧
      analyzePostDeepResult sr hv vd (some raw) = fallbackVerdict sr hv vd) ∧
    (∀ d r, raw.perspective = some d → d.rating = some r →
      validRatings.contains r = false →
      validateAnalysisResult raw = none ∧
      analyzePostDeepResult sr hv vd (some raw) = fallbackVerdict sr hv vd) ∧
    (∀ d r, raw.tone = some d → d.rating = some r →
      validRatings.contains r = false → validateAnalysisResult raw = none) ∧
    (∀ a, validateAnalysisResult raw = some a →
      verdictRatingsValid a = true ∧
      raw.overall = some a.overall ∧
      a.confidence = coerceConfidence raw.confidence) ∧
    (0 ≤ coerceConfidence raw.confidence ∧ coerceConfidence raw.confidence ≤ 1) ∧
    (raw.confidence = none → coerceConfidence raw.confidence = 7 / 10) ∧
    (∀ c, raw.confidence = some c → 0 ≤ c → c ≤ 1 →
      coerceConfidence raw.confidence = c) := by
  refine ⟨?_, fun ov hov hcont => ⟨?_, ?_⟩, fun d r hd hr hcont => ⟨?_, ?_⟩,
    fun d r hd hr hcont => ?_, fun a ha => ?_, ?_, fun h => by simp [coerceConfidence, h],
    fun c hc h0 h1 => ?_⟩
  · simp only [quickScanResult]
    cases h : rq.overall with
    | none => decide
    | some ov =>
      by_cases hc : ov ∈ validRatings
      · simp [hc]
      · simp [hc]
        decide
  · have hcont' : ov ∉ validRatings := by simpa using hcont
    simp [validateAnalysisResult, hov, hcont']
  · have hcont' : ov ∉ validRatings := by simpa using hcont
    have hval : validateAnalysisResult raw = none := by
      simp [validateAnalysisResult, hov, hcont']
    simp [analyzePostDeepResult, hval]
  · exact validate_none_of_dim raw
      (Or.inl (hd ▸ validateDim_none_of_invalid d r hr hcont))
  · have hval : validateAnalysisResult raw = none :=
      validate_none_of_dim raw
        (Or.inl (hd ▸ validateDim_none_of_invalid d r hr hcont))
    simp [analyzePostDeepResult, hval]
  · exact validate_none_of_dim raw
      (Or.inr (Or.inr (Or.inr (Or.inr
        (hd ▸ validateDim_none_of_invalid d r hr hcont)))))
  · simp only [validateAnalysisResult] at ha
    split at ha
    · cases ha
    · rename_i ov ho
      split at ha
      · rename_i hov
        split at ha
        · rename_i p v b s t hp hv' hb hs ht
          split at ha
          · cases ha
          · rename_i summ hsumm
            cases ha
            refine ⟨?_, ho, rfl⟩
            simp only [verdictRatingsValid]
            rw [hov, validateDim_sound _ _ hp, validateDim_sound _ _ hv',
              validateDim_sound _ _ hb, validateDim_sound _ _ hs,
              validateDim_sound _ _ ht]
            rfl
        · cases ha
      · cases ha
  · simp only [coerceConfidence]
    cases h : raw.confidence with
    | none => norm_num
    | some c =>
      by_cases hrange : c < 0 ∨ c > 1
      · simp only [hrange, if_true]
        norm_num
      · simp only [hrange, if_false]
        push_neg at hrange
        exact ⟨hrange.1, hrange.2⟩
  · simp only [coerceConfidence, hc]
    rw [if_neg]
    push_neg
    exact ⟨h0, h1⟩

/-- A concrete valid deep response whose confidence is out of range. -/
def rawBadConfidence : RawAnalysis :=
  { overall := some "green",
    perspective := some ⟨some "green", some "Balanced", none⟩,
    verification := some ⟨some "green", some "Verified", none⟩,
    balance := some ⟨some "green", some "Multiple views", none⟩,
    source := some ⟨some "green", some "Known outlet", none⟩,
    tone := some ⟨some "green", some "Neutral", none⟩,
    summary := some "Measured summary.",
    confidence := some 2,
    counterSources := none,
    relevantArticles := none,
    counterPerspective := none,
    commentAnalysis := none,
    videoAnalysis := none,
    hasVideo := none }

/-- A concrete deep response with a non-tri-state overall rating. -/
def rawPurpleOverall : RawAnalysis :=
  { rawBadConfidence with overall := some "purple" }

theorem c5_validation_amended_witness :
    (validRatings.contains
      (quickScanResult (some ⟨some "teal", some "ok", none⟩)).overall = true) ∧
    (rawPurpleOverall.overall = some "purple" ∧
     validRatings.contains "purple" = false ∧
     validateAnalysisResult rawPurpleOverall = none ∧
     analyzePostDeepResult [] false "" (some rawPurpleOverall) =
       fallbackVerdict [] false "") ∧
    (∀ a, validateAnalysisResult rawBadConfidence = some a →
      verdictRatingsValid a = true ∧
      rawBadConfidence.overall = some a.overall ∧
      a.confidence = coerceConfidence rawBadConfidence.confidence) ∧
    (rawBadConfidence.confidence = some 2 ∧
     coerceConfidence rawBadConfidence.confidence = 7 / 10) := by
  have h := c5_validation_amended rawPurpleOverall ⟨some "teal", some "ok", none⟩ [] false ""
  have h2 := c5_validation_amended rawBadConfidence ⟨some "teal", some "ok", none⟩ [] false ""
  refine ⟨h.1, ⟨rfl, by decide, (h.2.1 "purple" rfl (by decide)).1,
    (h.2.1 "purple" rfl (by decide)).2⟩, h2.2.2.2.2.1, rfl,
    by norm_num [rawBadConfidence, coerceConfidence]⟩

/-- C6: when the deep judgment call throws, returns empty/unparseable
output, or returns schema-invalid JSON, the deep analysis still returns
the complete fallback verdict: every rating tri-state, the explicit
"use your own judgment" summary, and confidence 0.3 — below even the
validator's 0.7 default. -/
theorem c6_fallback_complete (sr : List SearchResult) (hv : Bool) (vd : String)
    (j : Option RawAnalysis)
    (hfail : j = none ∨ ∃ raw, j = some raw ∧ validateAnalysisResult raw = none) :
    analyzePostDeepResult sr hv vd j = fallbackVerdict sr hv vd ∧
    verdictRatingsValid (fallbackVerdict sr hv vd) = true ∧
    (fallbackVerdict sr hv vd).summary =
      "We were unable to fully analyze this post. Please use your own judgment." ∧
    (fallbackVerdict sr hv vd).confidence = 3 / 10 ∧
    (fallbackVerdict sr hv vd).confidence < coerceConfidence none := by
  refine ⟨?_, rfl, rfl, rfl, by norm_num [fallbackVerdict, coerceConfidence]⟩
  rcases hfail with h | ⟨raw, hj, hval⟩
  · rw [h]
    rfl
  · rw [hj]
    simp [analyzePostDeepResult, hval]

theorem c6_fallback_complete_witness :
    ((none : Option RawAnalysis) = none ∨
      ∃ raw, (none : Option RawAnalysis) = some raw ∧
        validateAnalysisResult raw = none) ∧
    (analyzePostDeepResult [] true "a vivid scene" none =
      fallbackVerdict [] true "a vivid scene" ∧
     verdictRatingsValid (fallbackVerdict [] true "a vivid scene") = true ∧
     (fallbackVerdict [] true "a vivid scene").summary =
       "We were unable to fully analyze this post. Please use your own judgment." ∧
     (fallbackVerdict [] true "a vivid scene").confidence = 3 / 10 ∧
     (fallbackVerdict [] true "a vivid scene").confidence < coerceConfidence none) :=
  ⟨Or.inl rfl, c6_fallback_complete [] true "a vivid scene" none (Or.inl rfl)⟩

/-- The counter-source built from search result index `i.toNat` with the
stance of `art`. -/
def counterSourceAt (sr : List SearchResult) (i : Nat) (hi : i < sr.length)
    (stance : Option String) : CounterSource :=
  let r := sr.get ⟨i, hi⟩
  { outlet := r.source, lean := "", headline := r.title, url := r.url,
    snippet := r.content, stance := some (stanceOrNeutral stance), isReal := true }

/-- When every relevance judgment carries an in-range index, the
filter-map keeps every judgment: one counter-source per judgment, in
order, each built from the search result at the judged index with the
judged stance. -/
theorem relevantToCounterSources_all_valid (sr : List SearchResult) :
    ∀ arts : List RelevantArticle,
    (∀ art ∈ arts, ∃ i, art.index = some i ∧ 0 ≤ i ∧ i.toNat < sr.length) →
    (relevantToCounterSources sr arts).length = arts.length ∧
    (∀ (k : Nat) (art : RelevantArticle) (i : Int) (r : SearchResult),
      arts[k]? = some art → art.index = some i →
      sr[i.toNat]? = some r →
      (relevantToCounterSources sr arts)[k]? = some
        { outlet := r.source, lean := "", headline := r.title, url := r.url,
          snippet := r.content, stance := some (stanceOrNeutral art.stance),
          isReal := true }) := by
  intro arts
  induction arts with
  | nil => intro _; exact ⟨rfl, fun k art i r hk => by simp at hk⟩
  | cons a as ih =>
    intro hidx
    obtain ⟨i, hi, h0, hlt⟩ := hidx a (List.mem_cons_self a as)
    obtain ⟨ihlen, ihpt⟩ := ih (fun art hart => hidx art (List.mem_cons_of_mem a hart))
    have hcons : relevantToCounterSources sr (a :: as) =
        counterSourceAt sr i.toNat hlt a.stance :: relevantToCounterSources sr as := by
      simp only [relevantToCounterSources, List.filterMap_cons, hi]
      rw [dif_pos (show (0 : Int) ≤ i ∧ i.toNat < sr.length from ⟨h0, hlt⟩)]
      rfl
    refine ⟨by rw [hcons]; simp [ihlen], fun k art j r hk hj hr => ?_⟩
    cases k with
    | zero =>
      simp only [List.getElem?_cons_zero, Option.some.injEq] at hk
      subst hk
      rw [hi, Option.some.injEq] at hj
      subst hj
      have hrget : sr.get ⟨i.toNat, hlt⟩ = r := by
        rw [List.get_eq_getElem]
        rw [List.getElem?_eq_getElem hlt, Option.some.injEq] at hr
        exact hr
      rw [hcons]
      simp only [List.getElem?_cons_zero, counterSourceAt, Option.some.injEq]
      rw [hrget]
    | succ n =>
      simp only [List.getElem?_cons_succ] at hk
      rw [hcons]
      simp only [List.getElem?_cons_succ]
      exact ihpt n art j r hk hj hr

/-- C7: when the judgment response validates and marks a non-empty set of
in-range search-result indices as relevant, the final deep verdict's
counter-sources are exactly those marked results — one entry per
judgment, built from the judged search result, carrying the assigned
stance (or `'neutral'` when none) — and nothing else. -/
theorem c7_relevance_filtering (sr : List SearchResult) (raw : RawAnalysis)
    (a : AnalysisResult) (hv : Bool) (vd : String) (arts : List RelevantArticle)
    (hsr : 0 < sr.length)
    (hval : validateAnalysisResult raw = some a)
    (harts : raw.relevantArticles = some arts)
    (hne : 0 < arts.length)
    (hidx : ∀ art ∈ arts, ∃ i, art.index = some i ∧ 0 ≤ i ∧ i.toNat < sr.length) :
    (analyzePostDeepResult sr hv vd (some raw)).counterSources =
      relevantToCounterSources sr arts ∧
    (relevantToCounterSources sr arts).length = arts.length ∧
    (∀ (k : Nat) (art : RelevantArticle) (i : Int) (r : SearchResult),
      arts[k]? = some art → art.index = some i →
      sr[i.toNat]? = some r →
      (relevantToCounterSources sr arts)[k]? = some
        { outlet := r.source, lean := "", headline := r.title, url := r.url,
          snippet := r.content, stance := some (stanceOrNeutral art.stance),
          isReal := true }) := by
  obtain ⟨hlen, hpt⟩ := relevantToCounterSources_all_valid sr arts hidx
  refine ⟨?_, hlen, hpt⟩
  have h1 : analyzePostDeepResult sr hv vd (some raw) =
      processValidated sr hv vd raw a := by
    simp [analyzePostDeepResult, hval]
  rw [h1]
  simp only [processValidated, harts, Option.getD_some]
  rw [if_pos hsr, if_pos hne]
  split <;> split <;> rfl

/-- Three concrete search results for the witness. -/
def witnessResults : List SearchResult :=
  [⟨"Story A", "https://a.example", "a.example", "first excerpt"⟩,
   ⟨"Story B", "https://b.example", "b.example", "second excerpt"⟩,
   ⟨"Story C", "https://c.example", "c.example", "third excerpt"⟩]

/-- A validating deep response that marks only the second search result
as relevant, with a counter stance. -/
def rawSecondRelevant : RawAnalysis :=
  { overall := some "green",
    perspective := some ⟨some "green", some "Balanced", none⟩,
    verification := some ⟨some "green", some "Verified", none⟩,
    balance := some ⟨some "green", some "Multiple views", none⟩,
    source := some ⟨some "green", some "Known outlet", none⟩,
    tone := some ⟨some "green", some "Neutral", none⟩,
    summary := some "Measured summary.",
    confidence := none,
    counterSources := none,
    relevantArticles := some [⟨some 1, some "counter"⟩],
    counterPerspective := none,
    commentAnalysis := none,
    videoAnalysis := none,
    hasVideo := none }

theorem c7_relevance_filtering_witness :
    (0 < witnessResults.length ∧
     (∃ a, validateAnalysisResult rawSecondRelevant = some a) ∧
     rawSecondRelevant.relevantArticles = some [⟨some 1, some "counter"⟩] ∧
     0 < ([⟨some 1, some "counter"⟩] : List RelevantArticle).length ∧
     (∀ art ∈ ([⟨some 1, some "counter"⟩] : List RelevantArticle),
       ∃ i, art.index = some i ∧ 0 ≤ i ∧ i.toNat < witnessResults.length)) ∧
    (analyzePostDeepResult witnessResults false "" (some rawSecondRelevant)).counterSources =
      relevantToCounterSources witnessResults [⟨some 1, some "counter"⟩] ∧
    relevantToCounterSources witnessResults [⟨some 1, some "counter"⟩] =
      [{ outlet := "b.example", lean := "", headline := "Story B",
         url := "https://b.example", snippet := "second excerpt",
         stance := some "counter", isReal := true }] := by
  have hval : validateAnalysisResult rawSecondRelevant =
      some { overall := "green",
             perspective := ⟨"green", "Balanced", none⟩,
             verification := ⟨"green", "Verified", none⟩,
             balance := ⟨"green", "Multiple views", none⟩,
             source := ⟨"green", "Known outlet", none⟩,
             tone := ⟨"green", "Neutral", none⟩,
             summary := "Measured summary.",
             confidence := 7 / 10,
             counterPerspective := none,
             counterSources := [],
             commentAnalysis := none,
             videoAnalysis := none,
             hasVideo := none } := rfl
  have hidx : ∀ art ∈ ([⟨some 1, some "counter"⟩] : List RelevantArticle),
      ∃ i, art.index = some i ∧ 0 ≤ i ∧ i.toNat < witnessResults.length := by
    intro art hart
    simp only [List.mem_singleton] at hart
    subst hart
    exact ⟨1, rfl, by norm_num, by norm_num [witnessResults]⟩
  have h := c7_relevance_filtering witnessResults rawSecondRelevant _ false ""
    [⟨some 1, some "counter"⟩] (by norm_num [witnessResults]) hval rfl
    (by norm_num) hidx
  refine ⟨⟨by norm_num [witnessResults], ⟨_, hval⟩, rfl, by norm_num, hidx⟩,
    h.1, by decide⟩

/-- Appending a deep-analyze message raises the deep count by one. -/
theorem countDeepMsgs_append_one (l : List OutMessage) (postId text author : String)
    (hasVideo : Bool) (vdesc vthumb : String) (imgs comments : List String) :
    countDeepMsgs (l ++ [.deepAnalyzeMsg postId text author hasVideo vdesc vthumb
      imgs comments]) = countDeepMsgs l + 1 := by
  simp [countDeepMsgs, List.filter_append]

/-- Appending a quick-scan message raises the quick count by one and
leaves the deep count alone. -/
theorem countQuickMsgs_append_one (l : List OutMessage) (postId text author : String) :
    countQuickMsgs (l ++ [.quickScanMsg postId text author]) = countQuickMsgs l + 1 ∧
    countDeepMsgs (l ++ [.quickScanMsg postId text author]) = countDeepMsgs l := by
  constructor <;> simp [countQuickMsgs, countDeepMsgs, List.filter_append]

/-- A run of `triggerDeepAnalysis` on an idle post: some metadata update
with `deepPending` set, plus exactly one appended deep-analyze message. -/
theorem triggerDeep_run (pid : String) (fc : Option (List String))
    (st : ClientState) (meta : PostMeta)
    (hmeta : storeGet st.postMetaMap pid = some meta)
    (hpending : meta.deepPending = false) (hresult : meta.deepResult = none) :
    ∃ meta2 : PostMeta, meta2.deepPending = true ∧
      triggerDeepAnalysis pid fc st =
        { st with
          postMetaMap := storeSet st.postMetaMap pid meta2,
          outbound := st.outbound ++
            [.deepAnalyzeMsg pid meta2.text meta2.author meta2.media.hasVideo
              meta2.media.videoDescription meta2.media.videoThumbnailUrl
              meta2.media.imageUrls meta2.comments] } := by
  simp only [triggerDeepAnalysis, hmeta, hresult, hpending, Option.isSome_none,
    Bool.or_self, Bool.false_or, if_false]
  exact ⟨_, rfl, rfl⟩

/-- C9: per-content dedup.  A deep trigger on an idle post sends exactly
one deep-analyze message; a second trigger while the first is pending is
a no-op (same state, same outbound log), as is any trigger once a deep
result exists; likewise a post already pending or processed is not
re-submitted for quick scan, and a fresh `processPost` sends exactly one
quick-scan message while registering the post as pending. -/
theorem c9_dedup (pid : String) (fc1 fc2 : Option (List String))
    (st : ClientState) (meta : PostMeta)
    (hmeta : storeGet st.postMetaMap pid = some meta)
    (hpending : meta.deepPending = false) (hresult : meta.deepResult = none) :
    (countDeepMsgs (triggerDeepAnalysis pid fc1 st).outbound =
      countDeepMsgs st.outbound + 1) ∧
    (triggerDeepAnalysis pid fc2 (triggerDeepAnalysis pid fc1 st) =
      triggerDeepAnalysis pid fc1 st) ∧
    (∀ (st2 : ClientState) (m2 : PostMeta),
      storeGet st2.postMetaMap pid = some m2 → m2.deepResult.isSome = true →
      triggerDeepAnalysis pid fc2 st2 = st2) ∧
    (∀ (st3 : ClientState) (text author : String) (media : MediaInfo)
       (comments : List String) (b : Bool),
      st3.pendingPosts.contains pid = true ∨ st3.processedPosts.contains pid = true →
      processPost (some pid) text author media comments b st3 = st3) ∧
    (∀ (st4 : ClientState) (text author : String) (media : MediaInfo)
       (comments : List String),
      st4.pendingPosts.contains pid = false →
      st4.processedPosts.contains pid = false →
      text ≠ "" → ¬ text.length < 10 →
      countQuickMsgs (processPost (some pid) text author media comments true st4).outbound =
        countQuickMsgs st4.outbound + 1 ∧
      (processPost (some pid) text author media comments true st4).pendingPosts.contains pid = true) := by
  obtain ⟨m2, hm2, hrun⟩ := triggerDeep_run pid fc1 st meta hmeta hpending hresult
  refine ⟨?_, ?_, ?_, ?_, ?_⟩
  · rw [hrun]
    exact countDeepMsgs_append_one st.outbound pid m2.text m2.author m2.media.hasVideo
      m2.media.videoDescription m2.media.videoThumbnailUrl m2.media.imageUrls m2.comments
  · rw [hrun]
    simp only [triggerDeepAnalysis, storeGet_storeSet_self, hm2, Bool.or_true, if_true]
  · intro st2 mm hmm hsome
    simp [triggerDeepAnalysis, hmm, hsome]
  · intro st3 text author media comments b hin
    have hcond : (st3.processedPosts.contains pid || st3.pendingPosts.contains pid) = true := by
      rcases hin with h | h <;> rw [h] <;> simp
    simp only [processPost, hcond, if_true]
  · intro st4 text author media comments hnp hnproc htext hlen
    have hcond : (st4.processedPosts.contains pid || st4.pendingPosts.contains pid) = false := by
      rw [hnp, hnproc]
      rfl
    have htxt : (decide (text = "") || decide (text.length < 10)) = false := by
      simp [htext, hlen]
    have hrun4 : processPost (some pid) text author media comments true st4 =
        { st4 with
          postMetaMap := storeSet st4.postMetaMap pid
            ⟨pid, text, author, media, comments, none, none, false⟩,
          pendingPosts := setAdd st4.pendingPosts pid,
          outbound := st4.outbound ++ [.quickScanMsg pid text author] } := by
      simp only [processPost, hcond, htxt]
      simp
    rw [hrun4]
    refine ⟨(countQuickMsgs_append_one _ pid text author).1, ?_⟩
    have hnp' : pid ∉ st4.pendingPosts := by simpa using hnp
    simp [setAdd, hnp']

/-- A concrete idle client state holding one detected post. -/
def idleClientState : ClientState :=
  { postMetaMap := [("p1", ⟨"p1", "a post with enough text", "alice",
      ⟨false, "", "", []⟩, [], none, none, false⟩)],
    processedPosts := [],
    pendingPosts := [],
    outbound := [] }

theorem c9_dedup_witness :
    (storeGet idleClientState.postMetaMap "p1" =
      some ⟨"p1", "a post with enough text", "alice", ⟨false, "", "", []⟩,
        [], none, none, false⟩) ∧
    (countDeepMsgs (triggerDeepAnalysis "p1" none idleClientState).outbound =
      countDeepMsgs idleClientState.outbound + 1) ∧
    (triggerDeepAnalysis "p1" (some ["late comment"])
        (triggerDeepAnalysis "p1" none idleClientState) =
      triggerDeepAnalysis "p1" none idleClientState) ∧
    (countQuickMsgs (processPost (some "p2") "another sufficiently long post" "bob"
        ⟨false, "", "", []⟩ [] true idleClientState).outbound =
      countQuickMsgs idleClientState.outbound + 1) := by
  have h := c9_dedup "p1" none (some ["late comment"]) idleClientState
    ⟨"p1", "a post with enough text", "alice", ⟨false, "", "", []⟩, [], none, none, false⟩
    (by simp [idleClientState, storeGet]) rfl rfl
  refine ⟨by simp [idleClientState, storeGet], h.1, h.2.1, ?_⟩
  exact (h.2.2.2.2 idleClientState "another sufficiently long post" "bob"
    ⟨false, "", "", []⟩ [] rfl rfl (by decide) (by decide)).1

/-- C10: server input bounds and atomicity.  A missing/non-string/empty,
too-short or too-long text yields `success = false` with the matching
error message, an unchanged cache, and a response independent of the
analysis outcome; a cache hit returns it unchanged; and only an in-range
text that misses the cache runs the analysis and writes its result. -/
theorem c10_endpoint_bounds (sha : String → String) (body : ApiBody)
    (api : Except Unit AnalysisResult) (st : ServerState) :
    (body.text = none →
      handleAnalyze sha body api st =
        ({ success := false, analysis := none,
           error := some "Missing or invalid \x22text\x22 field", cached := none }, st)) ∧
    (∀ text, body.text = some text → text = "" →
      handleAnalyze sha body api st =
        ({ success := false, analysis := none,
           error := some "Missing or invalid \x22text\x22 field", cached := none }, st)) ∧
    (∀ text, body.text = some text → text ≠ "" → text.length < 10 →
      handleAnalyze sha body api st =
        ({ success := false, analysis := none,
           error := some "Text too short to analyze", cached := none }, st)) ∧
    (∀ text, body.text = some text → text.length > 5000 →
      handleAnalyze sha body api st =
        ({ success := false, analysis := none,
           error := some "Text too long (max 5000 characters)", cached := none }, st)) ∧
    (∀ text c, body.text = some text → text ≠ "" →
      10 ≤ text.length → text.length ≤ 5000 →
      serverGetCached sha text st = some c →
      handleAnalyze sha body api st =
        ({ success := true, analysis := some c, error := none, cached := some true }, st)) ∧
    (∀ text a, body.text = some text → text ≠ "" →
      10 ≤ text.length → text.length ≤ 5000 →
      serverGetCached sha text st = none → api = .ok a →
      handleAnalyze sha body api st =
        ({ success := true, analysis := some a, error := none, cached := some false },
         serverCacheAnalysis sha text a st)) := by
  refine ⟨fun h => by simp [handleAnalyze, h],
    fun text h he => by simp [handleAnalyze, h, he],
    fun text h he hlen => ?_, fun text h hlen => ?_,
    fun text c h he hlo hhi hc => ?_, fun text a h he hlo hhi hc hok => ?_⟩
  · simp only [handleAnalyze, h]
    rw [if_neg he, if_pos hlen]
  · simp only [handleAnalyze, h]
    rw [if_neg (by intro he; rw [he] at hlen; simp at hlen),
      if_neg (by omega), if_pos hlen]
  · simp only [handleAnalyze, h]
    rw [if_neg he, if_neg (by omega), if_neg (by omega), hc]
  · subst hok
    simp only [handleAnalyze, h]
    rw [if_neg he, if_neg (by omega), if_neg (by omega), hc]

theorem c10_endpoint_bounds_witness :
    ((ApiBody.mk (some "short") none).text = some "short" ∧
     "short" ≠ "" ∧ ("short").length < 10 ∧
     handleAnalyze (fun _ => "") (ApiBody.mk (some "short") none) (.error ())
        (ServerState.mk true []) =
      ({ success := false, analysis := none,
         error := some "Text too short to analyze", cached := none },
       ServerState.mk true [])) ∧
    ((ApiBody.mk (some "a long enough text") none).text = some "a long enough text" ∧
     "a long enough text" ≠ "" ∧ 10 ≤ ("a long enough text").length ∧
     ("a long enough text").length ≤ 5000 ∧
     serverGetCached (fun _ => "") "a long enough text" (ServerState.mk true []) = none ∧
     handleAnalyze (fun _ => "") (ApiBody.mk (some "a long enough text") none)
        (.ok sampleVerdict) (ServerState.mk true []) =
      ({ success := true, analysis := some sampleVerdict, error := none,
         cached := some false },
       serverCacheAnalysis (fun _ => "") "a long enough text" sampleVerdict
         (ServerState.mk true []))) := by
  have h1 := c10_endpoint_bounds (fun _ => "") (ApiBody.mk (some "short") none)
    (.error ()) (ServerState.mk true [])
  have h2 := c10_endpoint_bounds (fun _ => "") (ApiBody.mk (some "a long enough text") none)
    (.ok sampleVerdict) (ServerState.mk true [])
  refine ⟨⟨rfl, by decide, by decide,
    h1.2.2.1 "short" rfl (by decide) (by decide)⟩,
    ⟨rfl, by decide, by decide, by decide, by simp [serverGetCached, storeGet],
    h2.2.2.2.2.2 "a long enough text" sampleVerdict rfl (by decide) (by decide)
      (by decide) (by simp [serverGetCached, storeGet]) rfl⟩⟩

end ThinkSocial
